import Mathlib

/-!
Verification development for the episode-metadata extraction engine of the
lazytool repository (src/src/media.rs).

The Rust code extracts an episode record (title, season, episode) from a file
path by trying an ordered list of regex-based parsers.  The embedding below
models, from the source:

* the character classes and regular-expression subset used by the built-in
  patterns, with the regex crate's leftmost-first (preference-order) match
  semantics and numbered capture groups;
* compilation of a pattern string into a regex value, which can fail
  (modelling fallible construction in the regex dependency);
* the u16 integer parsing used for season and episode fields;
* the RegexParser record and its parse method, including the places where the
  Rust code can panic (indexing a Vec out of bounds, indexing a capture group
  that does not exist), modelled via an explicit abort outcome;
* the extraction engine from_path_with_regex and from_path with its built-in
  parser table PARSERS.

Character classes are the ASCII interpretations of the source classes; they
coincide with the Rust regex crate classes on all inputs exercised here.
-/

/-- The episode record produced on a successful structural match.  Mirrors
the Rust struct Episode of media.rs: title is optional text, and season and
episode are optional u16 values, modelled as Nat with the u16 range enforced
by the numeric parser parseU16. -/
structure Episode where
  title : Option String
  season : Option Nat
  episode : Option Nat
deriving DecidableEq, Repr

/-- Outcome of running a piece of Rust code that may panic: either it aborts
(a Rust panic, such as an out-of-bounds Vec or capture-group index), or it
returns a value. -/
inductive Outcome (α : Type) where
  | abort
  | ok (val : α)
deriving DecidableEq, Repr

/-- Model of the Rust anyhow Result type as used by from_path: either an
error with a message, or a value. -/
inductive RustResult (α : Type) where
  | err (msg : String)
  | ok (val : α)
deriving DecidableEq, Repr

/-- Model of a Rust Path argument.  The only operation the source uses is
to_str, which yields the path as text when the underlying bytes are valid
text and nothing otherwise; so a path is modelled by that result. -/
structure RustPath where
  toStr : Option String
deriving DecidableEq, Repr

/-- A text path, as produced by passing a string literal to from_path. -/
def strPath (s : String) : RustPath := ⟨some s⟩

/-- Character classes occurring in the built-in patterns: digit for the d
escape, wordc for the w escape, space for the s escape, anyNoNL for the dot,
and set for a bracket class listing characters, possibly negated. -/
inductive CCls where
  | digit
  | wordc
  | space
  | anyNoNL
  | set (neg : Bool) (cs : List Char)
deriving DecidableEq, Repr

/-- Whether a character belongs to a class. -/
def CCls.test : CCls → Char → Bool
  | .digit, c => c.isDigit
  | .wordc, c => c.isAlphanum || c = '_'
  | .space, c => c = ' ' || c = '\t' || c = '\n' || c = '\r' || c = '\x0b' || c = '\x0c'
  | .anyNoNL, c => decide (c ≠ '\n')
  | .set neg cs, c => if neg then !(cs.contains c) else cs.contains c

/-- Abstract syntax of the regular-expression subset used by the source
patterns: empty, literal character, character class, start and end anchors,
concatenation, preference-ordered alternation, numbered capture group, and
greedy and lazy Kleene star. -/
inductive RE where
  | eps
  | lit (c : Char)
  | cls (k : CCls)
  | bol
  | eol
  | seq (a b : RE)
  | alt (a b : RE)
  | grp (n : Nat) (r : RE)
  | starG (r : RE)
  | starL (r : RE)
deriving DecidableEq, Repr

/-- Structural size of a regex, used to compute a generous fuel bound for
the backtracking matcher. -/
def sizeRE : RE → Nat
  | .eps => 1
  | .lit _ => 1
  | .cls _ => 1
  | .bol => 1
  | .eol => 1
  | .seq a b => 1 + sizeRE a + sizeRE b
  | .alt a b => 1 + sizeRE a + sizeRE b
  | .grp _ r => 1 + sizeRE r
  | .starG r => 1 + sizeRE r
  | .starL r => 1 + sizeRE r

/-- Capture records collected during matching: group number together with
start and end positions in the subject. -/
abbrev Caps := List (Nat × Nat × Nat)

/-- Backtracking matcher.  REmatch cs fuel re i caps returns the list of all
possible outcomes (end position, captures) of matching re in subject cs
starting at position i, in the preference order of a leftmost-first regex
engine: alternation prefers its left branch, greedy star prefers more
iterations, lazy star prefers fewer.  Star iterations that make no progress
stop the iteration, and fuel bounds the recursion depth; the top-level entry
point supplies fuel that is never exhausted for the inputs evaluated here. -/
def REmatch (cs : List Char) : Nat → RE → Nat → Caps → List (Nat × Caps)
  | 0, _, _, _ => []
  | _ + 1, .eps, i, caps => [(i, caps)]
  | _ + 1, .lit c, i, caps =>
    match cs.get? i with
    | some c2 => if c2 = c then [(i + 1, caps)] else []
    | none => []
  | _ + 1, .cls k, i, caps =>
    match cs.get? i with
    | some c2 => if k.test c2 then [(i + 1, caps)] else []
    | none => []
  | _ + 1, .bol, i, caps => if i = 0 then [(i, caps)] else []
  | _ + 1, .eol, i, caps => if i = cs.length then [(i, caps)] else []
  | fuel + 1, .seq a b, i, caps =>
    (REmatch cs fuel a i caps).flatMap (fun r => REmatch cs fuel b r.1 r.2)
  | fuel + 1, .alt a b, i, caps =>
    REmatch cs fuel a i caps ++ REmatch cs fuel b i caps
  | fuel + 1, .grp n r, i, caps =>
    (REmatch cs fuel r i caps).map (fun r2 => (r2.1, (n, i, r2.1) :: r2.2))
  | fuel + 1, .starG r, i, caps =>
    ((REmatch cs fuel r i caps).flatMap (fun r2 =>
      if i < r2.1 then REmatch cs fuel (.starG r) r2.1 r2.2 else [r2]))
      ++ [(i, caps)]
  | fuel + 1, .starL r, i, caps =>
    (i, caps) :: ((REmatch cs fuel r i caps).flatMap (fun r2 =>
      if i < r2.1 then REmatch cs fuel (.starL r) r2.1 r2.2 else []))

/-- Fuel supplied to the matcher: ample for the recursion depth, which is
bounded by the regex size plus the subject length times the star body size. -/
def fuelFor (cs : List Char) (re : RE) : Nat :=
  (cs.length + 2) * (sizeRE re + 2)

/-- Extract the substring of the subject between two positions. -/
def sliceStr (cs : List Char) (a b : Nat) : String :=
  String.mk ((cs.take b).drop a)

/-- Leftmost search loop: try match start positions j, j+1, ... while tries
last; on the first position with a non-empty outcome list, return the most
preferred outcome, with the whole match recorded as capture group 0 and all
positional captures turned into strings. -/
def searchFrom (cs : List Char) (re : RE) : Nat → Nat → Option (List (Nat × String))
  | 0, _ => none
  | tries + 1, j =>
    match REmatch cs (fuelFor cs re) re j [] with
    | r :: _ => some (((0, j, r.1) :: r.2).map (fun t => (t.1, sliceStr cs t.2.1 t.2.2)))
    | [] => if j < cs.length then searchFrom cs re tries (j + 1) else none

/-- Model of Regex captures on the regex crate: the captures of the leftmost
match, preferring earlier start positions, with leftmost-first preference at
each position.  Returns the capture groups as (group number, text) pairs,
group 0 being the whole match. -/
def recaptures (re : RE) (s : String) : Option (List (Nat × String)) :=
  searchFrom s.data re (s.data.length + 1) 0

/-- Look up the text of a capture group; nothing when the group was not
captured.  Indexing Rust Captures with a group that is absent panics, which
the caller models via the abort outcome. -/
def capStr (caps : List (Nat × String)) (n : Nat) : Option String :=
  match caps.find? (fun t => t.1 = n) with
  | some t => some t.2
  | none => none

/-- Numeric value of a list of decimal digit characters. -/
def digitsVal (cs : List Char) : Nat :=
  cs.foldl (fun acc c => acc * 10 + (c.toNat - 48)) 0

/-- Model of Rust str::parse::<u16>() as used for the season and episode
fields: an optional leading plus sign, then one or more decimal digits whose
value fits in 16 bits; anything else fails, yielding none. -/
def parseU16 (s : String) : Option Nat :=
  let cs := match s.data with
    | '+' :: rest => rest
    | other => other
  if cs.isEmpty then none
  else if cs.all Char.isDigit then
    if digitsVal cs ≤ 65535 then some (digitsVal cs) else none
  else none

/-- Lex a decimal number from the head of a character list. -/
def lexNum (cs : List Char) : Option (Nat × List Char) :=
  let ds := cs.takeWhile Char.isDigit
  if ds.isEmpty then none else some (digitsVal ds, cs.drop ds.length)

/-- Exact repetition of a regex n times. -/
def repExact : Nat → RE → RE
  | 0, _ => .eps
  | n + 1, r => .seq r (repExact n r)

/-- Up to n repetitions of a regex, greedy or lazy by preference order. -/
def repUpTo (lzy : Bool) : Nat → RE → RE
  | 0, _ => .eps
  | n + 1, r =>
    if lzy then .alt .eps (.seq r (repUpTo lzy n r))
    else .alt (.seq r (repUpTo lzy n r)) .eps

/-- Collect the characters of a bracket class up to the closing bracket; a
backslash escapes the next character; an empty class is invalid. -/
def parseSetChars (acc : List Char) : List Char → Option (List Char × List Char)
  | [] => none
  | ']' :: rest => if acc.isEmpty then none else some (acc.reverse, rest)
  | '\\' :: c :: rest => parseSetChars (c :: acc) rest
  | '\\' :: [] => none
  | c :: rest => parseSetChars (c :: acc) rest

/-- Parse one non-group atom at the head of the pattern text: anchors, the
dot, bracket classes, escapes, or a literal character.  Characters that only
make sense as operators are rejected here. -/
def parseSimpleAtom : List Char → Option (RE × List Char)
  | [] => none
  | '^' :: rest => some (.bol, rest)
  | '$' :: rest => some (.eol, rest)
  | '.' :: rest => some (.cls .anyNoNL, rest)
  | '[' :: '^' :: rest =>
    match parseSetChars [] rest with
    | some (cs, rest2) => some (.cls (.set true cs), rest2)
    | none => none
  | '[' :: rest =>
    match parseSetChars [] rest with
    | some (cs, rest2) => some (.cls (.set false cs), rest2)
    | none => none
  | '\\' :: 'd' :: rest => some (.cls .digit, rest)
  | '\\' :: 'w' :: rest => some (.cls .wordc, rest)
  | '\\' :: 's' :: rest => some (.cls .space, rest)
  | '\\' :: c :: rest => if c.isAlphanum then none else some (.lit c, rest)
  | '\\' :: [] => none
  | c :: rest =>
    if c = '(' || c = ')' || c = '|' || c = '*' || c = '+' || c = '?' || c = '\x7b'
    then none else some (.lit c, rest)

/-- Parse an optional postfix quantifier and apply it to the atom: star,
plus and question mark with optional lazy marker, and counted repetitions
in braces with an exact count, a lower bound, or both bounds. -/
def parseQuant (r : RE) : List Char → Option (RE × List Char)
  | '*' :: '?' :: rest => some (.starL r, rest)
  | '*' :: rest => some (.starG r, rest)
  | '+' :: '?' :: rest => some (.seq r (.starL r), rest)
  | '+' :: rest => some (.seq r (.starG r), rest)
  | '?' :: '?' :: rest => some (.alt .eps r, rest)
  | '?' :: rest => some (.alt r .eps, rest)
  | '\x7b' :: rest =>
    match lexNum rest with
    | none => none
    | some (m, rest1) =>
      match rest1 with
      | '\x7d' :: '?' :: rest2 => some (repExact m r, rest2)
      | '\x7d' :: rest2 => some (repExact m r, rest2)
      | ',' :: '\x7d' :: '?' :: rest2 => some (.seq (repExact m r) (.starL r), rest2)
      | ',' :: '\x7d' :: rest2 => some (.seq (repExact m r) (.starG r), rest2)
      | ',' :: rest2 =>
        match lexNum rest2 with
        | none => none
        | some (n, rest3) =>
          match rest3 with
          | '\x7d' :: '?' :: rest4 =>
            if m ≤ n then some (.seq (repExact m r) (repUpTo true (n - m) r), rest4) else none
          | '\x7d' :: rest4 =>
            if m ≤ n then some (.seq (repExact m r) (repUpTo false (n - m) r), rest4) else none
          | _ => none
      | _ => none
  | rest => some (r, rest)

/-- Recursive-descent pattern compiler: parse a concatenation of quantified
atoms, stopping at the end of input or at a closing parenthesis; an opening
parenthesis starts a capture group numbered in order of appearance.  The
fuel argument bounds recursion depth and is supplied generously at the top
level; failure models an unparseable pattern. -/
def parseSeq : Nat → List Char → Nat → Option (RE × List Char × Nat)
  | 0, _, _ => none
  | _ + 1, [], g => some (.eps, [], g)
  | _ + 1, ')' :: rest, g => some (.eps, ')' :: rest, g)
  | fuel + 1, '(' :: rest, g =>
    match parseSeq fuel rest (g + 1) with
    | some (inner, ')' :: rest2, g2) =>
      match parseQuant (.grp g inner) rest2 with
      | some (r, rest3) =>
        match parseSeq fuel rest3 g2 with
        | some (tail, rest4, g3) => some (.seq r tail, rest4, g3)
        | none => none
      | none => none
    | _ => none
  | fuel + 1, c :: rest, g =>
    match parseSimpleAtom (c :: rest) with
    | some (a, rest1) =>
      match parseQuant a rest1 with
      | some (r, rest2) =>
        match parseSeq fuel rest2 g with
        | some (tail, rest3, g2) => some (.seq r tail, rest3, g2)
        | none => none
      | none => none
    | none => none

/-- Model of Regex::new on the pattern subset used by the source: compile
the pattern text into a regex value, or fail when the text is not a
well-formed pattern. -/
def compileRegex (s : String) : Option RE :=
  match parseSeq (s.length + 1) s.data 1 with
  | some (re, [], _) => some re
  | _ => none

/-- The RegexParser struct of media.rs: a pattern string and the list of
capture-group indexes designating title, season and episode. -/
structure RegexParser where
  pattern : String
  indexes : List Nat
deriving DecidableEq, Repr

/-- RegexParser::new of media.rs: stores the pattern text and indexes
verbatim; it performs no validation and cannot fail. -/
def RegexParser.new (pattern : String) (indexes : List Nat) : RegexParser :=
  ⟨pattern, indexes⟩

/-- Parser::parse for RegexParser in media.rs, with Rust panics modelled as
the abort outcome.  The pattern is compiled on every call, a compilation
failure being swallowed into no-match by the question-mark on ok().  On a
match, the code indexes the capture groups designated by indexes: reading
indexes 0, 1 and 2 of a Vec shorter than 3 panics, as does indexing a
capture group that is absent from the captures; season defaults to one when
the season index is the sentinel 0, and the season and episode texts are
parsed as u16 with failures degraded to none. -/
def RegexParser.parseO (p : RegexParser) (path : String) : Outcome (Option Episode) :=
  match compileRegex p.pattern with
  | none => .ok none
  | some re =>
    match recaptures re path with
    | none => .ok none
    | some caps =>
      match p.indexes with
      | i0 :: i1 :: i2 :: _ =>
        match capStr caps i0 with
        | none => .abort
        | some title =>
          if i1 ≠ 0 then
            match capStr caps i1 with
            | none => .abort
            | some seasonText =>
              match capStr caps i2 with
              | none => .abort
              | some episodeText =>
                .ok (some ⟨some title, parseU16 seasonText, parseU16 episodeText⟩)
          else
            match capStr caps i2 with
            | none => .abort
            | some episodeText =>
              .ok (some ⟨some title, some 1, parseU16 episodeText⟩)
      | _ => .abort

/-- The matching loop of from_path_with_regex: try each parser in list
order, returning the first record produced; a parser that panics aborts the
whole call; when no parser matches the loop falls through to Ok(None). -/
def tryParsers (s : String) : List (String → Outcome (Option Episode)) →
    Outcome (RustResult (Option Episode))
  | [] => .ok (.ok none)
  | p :: ps =>
    match p s with
    | .abort => .abort
    | .ok (some e) => .ok (.ok (some e))
    | .ok none => tryParsers s ps

/-- Episode::from_path_with_regex of media.rs, generic over the parsers: a
parser is its parse method, a function from the path text to an outcome.
The path is first converted to text, a failure being the only error return;
then the parsers are tried in order. -/
def Episode.from_path_with_regex (path : RustPath)
    (parsers : List (String → Outcome (Option Episode))) :
    Outcome (RustResult (Option Episode)) :=
  match path.toStr with
  | none => .ok (.err "Invalid path")
  | some s => tryParsers s parsers

/-- The built-in pattern table Episode::PARSERS of media.rs, in source
order: each entry is the pattern text and the capture indexes for title,
season and episode, the sentinel 0 in season position meaning the default
season of one. -/
def Episode.PARSERS : List (String × List Nat) := [
  ("^(.*?)/([^/]+)S(\\d\x7b2\x7d)\\.(\\d\x7b1,2\x7d)集\\.(\\d\x7b4\x7dP)/(\\d\x7b2\x7d)\\.(\\w+)$", [2, 3, 6]),
  ("^(.*?)/([^/]+)S(\\d\x7b2\x7d)E(\\d\x7b2\x7d)\\.(\\w+)$", [2, 3, 4]),
  ("^(.*?)/([^/]+)/S(\\d\x7b1,2\x7d)\\s+\\(\\d\x7b4\x7d\\)\\s+\\d\x7b1,2\x7dK/(\\d\x7b2\x7d)\\.(\\w+)$", [2, 3, 4]),
  ("/([^/]+)/([^/]+) \\(.*\\) .*E(\\d\x7b2\x7d)", [2, 0, 3]),
  ("^(.*?)/([^/]+)\\.(\\d\x7b4\x7d)\\.(\\d\x7b5\x7d)\\.\\w+$", [2, 3, 4]),
  ("^(.*?)/([^/]+)\\.1080P/.*?第(\\d\x7b1,2\x7d)集\\.\\w+$", [2, 0, 3])
]

/-- The built-in parsers, constructed from PARSERS with RegexParser::new
exactly as Episode::from_path does. -/
def builtinParsers : List RegexParser :=
  Episode.PARSERS.map (fun pr => RegexParser.new pr.1 pr.2)

/-- Episode::from_path of media.rs: build the built-in parsers and run
from_path_with_regex on them. -/
def Episode.from_path (path : RustPath) : Outcome (RustResult (Option Episode)) :=
  Episode.from_path_with_regex path (builtinParsers.map (fun p => p.parseO))

/-- The capture groups of a regex that participate in every successful
match: groups under alternation or a star may be skipped, groups in plain
concatenation may not. -/
def mandatory : RE → List Nat
  | .seq a b => mandatory a ++ mandatory b
  | .grp n r => n :: mandatory r
  | _ => []

/-- A field-map index is safe for a regex when it designates the whole
match or a capture group that participates in every successful match; the
parse method cannot panic on such indexes. -/
def safeIndex (re : RE) (i : Nat) : Bool :=
  i = 0 || (mandatory re).contains i

/-- Validity condition on a RegexParser under which its parse method never
panics: when the pattern compiles, the index list must designate title,
season and episode positions that are safe for the compiled regex.  All
built-in parsers satisfy it. -/
def goodParser (p : RegexParser) : Bool :=
  match compileRegex p.pattern with
  | none => true
  | some re =>
    match p.indexes with
    | i0 :: i1 :: i2 :: _ => safeIndex re i0 && safeIndex re i1 && safeIndex re i2
    | _ => false

section StructuralLemmas

/-- A successful lookup exists whenever some capture entry carries the
requested group number. -/
theorem capStr_isSome_of_mem (caps : List (Nat × String)) (n : Nat) (v : String)
    (hv : (n, v) ∈ caps) : (capStr caps n).isSome := by
  unfold capStr
  induction caps with
  | nil => cases hv
  | cons c cs ih =>
    rw [List.find?_cons]
    by_cases hc : c.1 = n
    · simp [hc]
    · rw [decide_eq_false hc]
      rcases List.mem_cons.mp hv with h | h
      · exact absurd (by rw [← h]) hc
      · exact ih h

/-- The matcher only ever extends the capture list: every capture present
on entry is present in every outcome. -/
theorem remtch_mono (cs : List Char) :
    ∀ (fuel : Nat) (re : RE) (i : Nat) (caps : Caps) (r : Nat × Caps),
      r ∈ REmatch cs fuel re i caps → ∀ x ∈ caps, x ∈ r.2 := by
  intro fuel
  induction fuel with
  | zero =>
    intro re i caps r hr
    simp [REmatch] at hr
  | succ fuel ih =>
    intro re i caps r hr x hx
    cases re with
    | eps =>
      simp only [REmatch, List.mem_singleton] at hr
      subst hr; exact hx
    | lit c =>
      simp only [REmatch] at hr
      split at hr
      · split at hr
        · simp only [List.mem_singleton] at hr; subst hr; exact hx
        · cases hr
      · cases hr
    | cls k =>
      simp only [REmatch] at hr
      split at hr
      · split at hr
        · simp only [List.mem_singleton] at hr; subst hr; exact hx
        · cases hr
      · cases hr
    | bol =>
      simp only [REmatch] at hr
      split at hr
      · simp only [List.mem_singleton] at hr; subst hr; exact hx
      · cases hr
    | eol =>
      simp only [REmatch] at hr
      split at hr
      · simp only [List.mem_singleton] at hr; subst hr; exact hx
      · cases hr
    | seq a b =>
      simp only [REmatch, List.mem_flatMap] at hr
      obtain ⟨mid, hmid, hrb⟩ := hr
      exact ih b mid.1 mid.2 r hrb x (ih a i caps mid hmid x hx)
    | alt a b =>
      simp only [REmatch, List.mem_append] at hr
      rcases hr with hr | hr
      · exact ih a i caps r hr x hx
      · exact ih b i caps r hr x hx
    | grp n r0 =>
      simp only [REmatch, List.mem_map] at hr
      obtain ⟨r2, hr2, heq⟩ := hr
      subst heq
      exact List.mem_cons_of_mem _ (ih r0 i caps r2 hr2 x hx)
    | starG r0 =>
      simp only [REmatch, List.mem_append, List.mem_flatMap, List.mem_singleton] at hr
      rcases hr with ⟨r2, hr2, hin⟩ | hr
      · by_cases hlt : i < r2.1
        · rw [if_pos hlt] at hin
          exact ih (.starG r0) r2.1 r2.2 r hin x (ih r0 i caps r2 hr2 x hx)
        · rw [if_neg hlt] at hin
          simp only [List.mem_singleton] at hin
          rw [hin]; exact ih r0 i caps r2 hr2 x hx
      · subst hr; exact hx
    | starL r0 =>
      simp only [REmatch, List.mem_cons, List.mem_flatMap] at hr
      rcases hr with hr | ⟨r2, hr2, hin⟩
      · subst hr; exact hx
      · by_cases hlt : i < r2.1
        · rw [if_pos hlt] at hin
          exact ih (.starL r0) r2.1 r2.2 r hin x (ih r0 i caps r2 hr2 x hx)
        · rw [if_neg hlt] at hin
          cases hin

/-- Every mandatory capture group of the regex is recorded in the capture
list of every outcome of the matcher. -/
theorem remtch_mand (cs : List Char) :
    ∀ (fuel : Nat) (re : RE) (i : Nat) (caps : Caps) (r : Nat × Caps),
      r ∈ REmatch cs fuel re i caps → ∀ n ∈ mandatory re, ∃ a b, (n, a, b) ∈ r.2 := by
  intro fuel
  induction fuel with
  | zero =>
    intro re i caps r hr
    simp [REmatch] at hr
  | succ fuel ih =>
    intro re i caps r hr n hn
    cases re with
    | eps => simp [mandatory] at hn
    | lit c => simp [mandatory] at hn
    | cls k => simp [mandatory] at hn
    | bol => simp [mandatory] at hn
    | eol => simp [mandatory] at hn
    | alt a b => simp [mandatory] at hn
    | starG r0 => simp [mandatory] at hn
    | starL r0 => simp [mandatory] at hn
    | seq a b =>
      simp only [REmatch, List.mem_flatMap] at hr
      obtain ⟨mid, hmid, hrb⟩ := hr
      simp only [mandatory, List.mem_append] at hn
      rcases hn with hn | hn
      · obtain ⟨p, q, hpq⟩ := ih a i caps mid hmid n hn
        exact ⟨p, q, remtch_mono cs fuel b mid.1 mid.2 r hrb _ hpq⟩
      · exact ih b mid.1 mid.2 r hrb n hn
    | grp m r0 =>
      simp only [REmatch, List.mem_map] at hr
      obtain ⟨r2, hr2, heq⟩ := hr
      subst heq
      simp only [mandatory, List.mem_cons] at hn
      rcases hn with hn | hn
      · subst hn
        exact ⟨i, r2.1, List.mem_cons_self _ _⟩
      · obtain ⟨p, q, hpq⟩ := ih r0 i caps r2 hr2 n hn
        exact ⟨p, q, List.mem_cons_of_mem _ hpq⟩

/-- When the leftmost search produces captures, group 0 and every mandatory
group of the regex can be looked up successfully. -/
theorem searchFrom_caps (cs : List Char) (re : RE) :
    ∀ (tries j : Nat) (caps : List (Nat × String)),
      searchFrom cs re tries j = some caps →
      ∀ n, (n = 0 ∨ n ∈ mandatory re) → (capStr caps n).isSome := by
  intro tries
  induction tries with
  | zero =>
    intro j caps h
    simp [searchFrom] at h
  | succ tries ih =>
    intro j caps h n hn
    rw [searchFrom] at h
    split at h
    case h_1 r rest hm =>
      have hr : r ∈ REmatch cs (fuelFor cs re) re j [] := by
        rw [hm]; exact List.mem_cons_self _ _
      simp only [Option.some.injEq] at h
      subst h
      rcases hn with hn | hn
      · subst hn
        exact capStr_isSome_of_mem _ 0 (sliceStr cs j r.1)
          (List.mem_map.mpr ⟨(0, j, r.1), List.mem_cons_self _ _, rfl⟩)
      · obtain ⟨a, b, hab⟩ := remtch_mand cs (fuelFor cs re) re j [] r hr n hn
        exact capStr_isSome_of_mem _ n (sliceStr cs a b)
          (List.mem_map.mpr ⟨(n, a, b), List.mem_cons_of_mem _ hab, rfl⟩)
    case h_2 hm =>
      split at h
      · exact ih (j + 1) caps h n hn
      · cases h

/-- A parser satisfying the validity condition never panics: every parse
call returns a value. -/
theorem parseO_no_abort (p : RegexParser) (hp : goodParser p = true) (path : String) :
    ∃ r, p.parseO path = Outcome.ok r := by
  unfold goodParser at hp
  cases hc : compileRegex p.pattern with
  | none => exact ⟨none, by simp only [RegexParser.parseO, hc]⟩
  | some re =>
    rw [hc] at hp
    cases hcap : recaptures re path with
    | none => exact ⟨none, by simp only [RegexParser.parseO, hc, hcap]⟩
    | some caps =>
      have hcapn : ∀ n, safeIndex re n = true → (capStr caps n).isSome := by
        intro n hn
        refine searchFrom_caps path.data re (path.data.length + 1) 0 caps hcap n ?_
        simpa [safeIndex] using hn
      cases hidx : p.indexes with
      | nil => rw [hidx] at hp; simp at hp
      | cons i0 t0 =>
        cases t0 with
        | nil => rw [hidx] at hp; simp at hp
        | cons i1 t1 =>
          cases t1 with
          | nil => rw [hidx] at hp; simp at hp
          | cons i2 t2 =>
            rw [hidx] at hp
            have hsplit : safeIndex re i0 = true ∧ safeIndex re i1 = true ∧
                safeIndex re i2 = true := by
              simpa [Bool.and_eq_true, and_assoc] using hp
            obtain ⟨h0, h1, h2⟩ := hsplit
            cases hcs0 : capStr caps i0 with
            | none => have hi := hcapn i0 h0; rw [hcs0] at hi; simp at hi
            | some t =>
              by_cases hi1 : i1 = 0
              · cases hcs2 : capStr caps i2 with
                | none => have hi := hcapn i2 h2; rw [hcs2] at hi; simp at hi
                | some et =>
                  refine ⟨some ⟨some t, some 1, parseU16 et⟩, ?_⟩
                  simp [RegexParser.parseO, hc, hcap, hidx, hcs0, hcs2, hi1]
              · cases hcs1 : capStr caps i1 with
                | none => have hi := hcapn i1 h1; rw [hcs1] at hi; simp at hi
                | some st =>
                  cases hcs2 : capStr caps i2 with
                  | none => have hi := hcapn i2 h2; rw [hcs2] at hi; simp at hi
                  | some et =>
                    refine ⟨some ⟨some t, parseU16 st, parseU16 et⟩, ?_⟩
                    simp [RegexParser.parseO, hc, hcap, hidx, hcs0, hcs1, hcs2, hi1]

/-- The matching loop returns the record of the first parser that matches:
parsers before it return no match, and the parsers after it are irrelevant
to the result. -/
theorem tryParsers_first (s : String) (e : Episode) :
    ∀ (pre : List (String → Outcome (Option Episode)))
      (p : String → Outcome (Option Episode))
      (post : List (String → Outcome (Option Episode))),
      (∀ q ∈ pre, q s = Outcome.ok none) → p s = Outcome.ok (some e) →
      tryParsers s (pre ++ p :: post) = Outcome.ok (RustResult.ok (some e)) := by
  intro pre
  induction pre with
  | nil =>
    intro p post _ hp
    simp [tryParsers, hp]
  | cons q pre ih =>
    intro p post hpre hp
    have hq : q s = Outcome.ok none := hpre q (List.mem_cons_self _ _)
    simp only [List.cons_append, tryParsers, hq]
    exact ih p post (fun q2 h2 => hpre q2 (List.mem_cons_of_mem _ h2)) hp

/-- When every parser in the list returns a value, the matching loop
returns Ok of some optional record: it neither panics nor errors. -/
theorem tryParsers_total (s : String) :
    ∀ ps : List (String → Outcome (Option Episode)),
      (∀ p ∈ ps, ∃ r, p s = Outcome.ok r) →
      ∃ v, tryParsers s ps = Outcome.ok (RustResult.ok v) := by
  intro ps
  induction ps with
  | nil => intro _; exact ⟨none, rfl⟩
  | cons p ps ih =>
    intro h
    obtain ⟨r, hr⟩ := h p (List.mem_cons_self _ _)
    cases r with
    | some e => exact ⟨some e, by simp [tryParsers, hr]⟩
    | none =>
      obtain ⟨v, hv⟩ := ih (fun q hq => h q (List.mem_cons_of_mem _ hq))
      exact ⟨v, by simp [tryParsers, hr, hv]⟩

/-- A parser whose field map carries the sentinel 0 in season position
produces records whose season is always the default one. -/
theorem parseO_season_default (p : RegexParser) (i0 i2 : Nat)
    (hidx : p.indexes = [i0, 0, i2]) (path : String) (ep : Episode)
    (h : p.parseO path = Outcome.ok (some ep)) : ep.season = some 1 := by
  cases hc : compileRegex p.pattern with
  | none => simp [RegexParser.parseO, hc] at h
  | some re =>
    cases hcap : recaptures re path with
    | none => simp [RegexParser.parseO, hc, hcap] at h
    | some caps =>
      simp only [RegexParser.parseO, hc, hcap, hidx] at h
      cases hcs0 : capStr caps i0 with
      | none => simp only [hcs0] at h; exact Outcome.noConfusion h
      | some t =>
        simp only [hcs0] at h
        rw [if_neg (by simp)] at h
        cases hcs2 : capStr caps i2 with
        | none => simp only [hcs2] at h; exact Outcome.noConfusion h
        | some et =>
          simp only [hcs2, Outcome.ok.injEq, Option.some.injEq] at h
          rw [← h]

/-- Every record a parse call produces carries a title: the title capture
is read unconditionally on a structural match. -/
theorem parseO_title_some (p : RegexParser) (path : String) (ep : Episode)
    (h : p.parseO path = Outcome.ok (some ep)) : ep.title.isSome := by
  cases hc : compileRegex p.pattern with
  | none => simp [RegexParser.parseO, hc] at h
  | some re =>
    cases hcap : recaptures re path with
    | none => simp [RegexParser.parseO, hc, hcap] at h
    | some caps =>
      simp only [RegexParser.parseO, hc, hcap] at h
      cases hidx : p.indexes with
      | nil => simp only [hidx] at h; exact Outcome.noConfusion h
      | cons i0 t0 =>
        cases t0 with
        | nil => simp only [hidx] at h; exact Outcome.noConfusion h
        | cons i1 t1 =>
          cases t1 with
          | nil => simp only [hidx] at h; exact Outcome.noConfusion h
          | cons i2 t2 =>
            simp only [hidx] at h
            cases hcs0 : capStr caps i0 with
            | none => simp only [hcs0] at h; exact Outcome.noConfusion h
            | some t =>
              simp only [hcs0] at h
              by_cases hi1 : i1 ≠ 0
              · rw [if_pos hi1] at h
                cases hcs1 : capStr caps i1 with
                | none => simp only [hcs1] at h; exact Outcome.noConfusion h
                | some st =>
                  simp only [hcs1] at h
                  cases hcs2 : capStr caps i2 with
                  | none => simp only [hcs2] at h; exact Outcome.noConfusion h
                  | some et =>
                    simp only [hcs2, Outcome.ok.injEq, Option.some.injEq] at h
                    rw [← h]; rfl
              · rw [if_neg hi1] at h
                cases hcs2 : capStr caps i2 with
                | none => simp only [hcs2] at h; exact Outcome.noConfusion h
                | some et =>
                  simp only [hcs2, Outcome.ok.injEq, Option.some.injEq] at h
                  rw [← h]; rfl

/-- Values produced by the u16 parser fit in 16 bits. -/
theorem parseU16_le (s : String) (n : Nat) (h : parseU16 s = some n) : n ≤ 65535 := by
  simp only [parseU16] at h
  split at h
  · exact Option.noConfusion h
  · split at h
    · split at h
      · rename_i hle
        injection h with h2
        exact h2 ▸ hle
      · exact Option.noConfusion h
    · exact Option.noConfusion h

/-- Every built-in parser satisfies the validity condition under which a
parse call cannot panic. -/
theorem builtin_good : builtinParsers.all goodParser = true := by decide

/-- On a text path, from_path neither panics nor errors: it returns Ok of
some optional record. -/
theorem from_path_ok (path : RustPath) (s : String) (h : path.toStr = some s) :
    ∃ v, Episode.from_path path = Outcome.ok (RustResult.ok v) := by
  unfold Episode.from_path Episode.from_path_with_regex
  rw [h]
  refine tryParsers_total s _ ?_
  intro f hf
  obtain ⟨q, hq, rfl⟩ := List.mem_map.mp hf
  exact parseO_no_abort q (List.all_eq_true.mp builtin_good q hq) s

end StructuralLemmas

/-- Additional totality fact about the matching loop: it never produces an
error value, whatever the parsers do. -/
theorem tryParsers_no_err (s : String) (e : String) :
    ∀ ps, tryParsers s ps ≠ Outcome.ok (RustResult.err e) := by
  intro ps
  induction ps with
  | nil => intro h; simp [tryParsers] at h
  | cons p ps ih =>
    intro h
    cases hr : p s with
    | abort => simp [tryParsers, hr] at h
    | ok v =>
      cases v with
      | some e2 => simp [tryParsers, hr] at h
      | none => rw [tryParsers, hr] at h; exact ih h

/-- Claim C1: for every path string and every ordered matcher list, the
extraction engine tries the matchers strictly in list order and returns the
record of the first matcher whose pattern structurally matches, without
evaluating any later matcher: matchers before the first match return no
match, and the result is independent of the matchers after it. -/
theorem claim_C1_first_match_wins (s : String) (e : Episode)
    (pre : List (String → Outcome (Option Episode)))
    (p : String → Outcome (Option Episode))
    (post : List (String → Outcome (Option Episode)))
    (hpre : ∀ q ∈ pre, q s = Outcome.ok none)
    (hp : p s = Outcome.ok (some e)) :
    Episode.from_path_with_regex (strPath s) (pre ++ p :: post) =
      Outcome.ok (RustResult.ok (some e)) := by
  unfold Episode.from_path_with_regex strPath
  exact tryParsers_first s e pre p post hpre hp

/-- Witness for claim C1, also locking in the built-in precedence: the path
matches both built-in pattern 2 and built-in pattern 4 with different field
values (pattern 2 gives season 3, pattern 4 would give the default season
1), and the engine returns the record of the earlier pattern 2. -/
theorem claim_C1_witness :
    (RegexParser.new "/([^/]+)/([^/]+) \\(.*\\) .*E(\\d\x7b2\x7d)" [2, 0, 3]).parseO
      "/x/Show (2013) blah/ShowS03E02.mp4" =
      Outcome.ok (some ⟨some "Show", some 1, some 2⟩) ∧
    Episode.from_path_with_regex (strPath "/x/Show (2013) blah/ShowS03E02.mp4")
      (builtinParsers.map (fun p => p.parseO)) =
      Outcome.ok (RustResult.ok (some ⟨some "Show", some 3, some 2⟩)) := by
  constructor
  · decide
  · exact claim_C1_first_match_wins "/x/Show (2013) blah/ShowS03E02.mp4"
      ⟨some "Show", some 3, some 2⟩
      [(RegexParser.new "^(.*?)/([^/]+)S(\\d\x7b2\x7d)\\.(\\d\x7b1,2\x7d)集\\.(\\d\x7b4\x7dP)/(\\d\x7b2\x7d)\\.(\\w+)$" [2, 3, 6]).parseO]
      ((RegexParser.new "^(.*?)/([^/]+)S(\\d\x7b2\x7d)E(\\d\x7b2\x7d)\\.(\\w+)$" [2, 3, 4]).parseO)
      [(RegexParser.new "^(.*?)/([^/]+)/S(\\d\x7b1,2\x7d)\\s+\\(\\d\x7b4\x7d\\)\\s+\\d\x7b1,2\x7dK/(\\d\x7b2\x7d)\\.(\\w+)$" [2, 3, 4]).parseO,
       (RegexParser.new "/([^/]+)/([^/]+) \\(.*\\) .*E(\\d\x7b2\x7d)" [2, 0, 3]).parseO,
       (RegexParser.new "^(.*?)/([^/]+)\\.(\\d\x7b4\x7d)\\.(\\d\x7b5\x7d)\\.\\w+$" [2, 3, 4]).parseO,
       (RegexParser.new "^(.*?)/([^/]+)\\.1080P/.*?第(\\d\x7b1,2\x7d)集\\.\\w+$" [2, 0, 3]).parseO]
      (by
        intro q hq
        simp only [List.mem_singleton] at hq
        rw [hq]
        decide)
      (by decide)

/-- Claim C2: with the built-in matcher list, extraction on the three
end-to-end example paths returns the records with title Show and season and
episode 1 and 1, 1 and 2, and 2009 and 1201 respectively. -/
theorem claim_C2_end_to_end :
    Episode.from_path (strPath "/a/b/Show/ShowS01.37集.1080P/01.mkv") =
      Outcome.ok (RustResult.ok (some ⟨some "Show", some 1, some 1⟩)) ∧
    Episode.from_path (strPath "/a/ShowS01E02.mp4") =
      Outcome.ok (RustResult.ok (some ⟨some "Show", some 1, some 2⟩)) ∧
    Episode.from_path (strPath "/a/Show.2009.01201.mp4") =
      Outcome.ok (RustResult.ok (some ⟨some "Show", some 2009, some 1201⟩)) := by
  exact ⟨by decide, by decide, by decide⟩

/-- Claim C3: for every matcher whose field map carries the sentinel value
0 in the season position and every path that structurally matches it, the
produced record's season field is the default one, regardless of the path;
capture group 0 is never parsed as a season. -/
theorem claim_C3_season_sentinel_default (p : RegexParser) (i0 i2 : Nat)
    (hidx : p.indexes = [i0, 0, i2]) (path : String) (ep : Episode)
    (h : p.parseO path = Outcome.ok (some ep)) : ep.season = some 1 :=
  parseO_season_default p i0 i2 hidx path ep h

/-- Witness for claim C3: built-in pattern 4, whose field map is 2, 0, 3,
matches a concrete path containing the digits 2013, and the record's season
is the default one. -/
theorem claim_C3_witness :
    (RegexParser.new "/([^/]+)/([^/]+) \\(.*\\) .*E(\\d\x7b2\x7d)" [2, 0, 3]).parseO
      "/a/Show (2013) x/y.E02.mp4" = Outcome.ok (some ⟨some "Show", some 1, some 2⟩) ∧
    (⟨some "Show", some 1, some 2⟩ : Episode).season = some 1 := by
  have hm : (RegexParser.new "/([^/]+)/([^/]+) \\(.*\\) .*E(\\d\x7b2\x7d)" [2, 0, 3]).parseO
      "/a/Show (2013) x/y.E02.mp4" = Outcome.ok (some ⟨some "Show", some 1, some 2⟩) := by
    decide
  exact ⟨hm, claim_C3_season_sentinel_default
    (RegexParser.new "/([^/]+)/([^/]+) \\(.*\\) .*E(\\d\x7b2\x7d)" [2, 0, 3]) 2 3 rfl
    "/a/Show (2013) x/y.E02.mp4" ⟨some "Show", some 1, some 2⟩ hm⟩

/-- Claim C4: on a structural match whose captured episode text fails to
parse as an unsigned integer, parse still returns a record whose episode
field is absent while the title, and the season when defaulted or parsed
from its own capture, remain populated: the failure is not an error and
does not suppress the record.  Concretely, a captured episode text of ab
yields a record with title and season populated and episode absent. -/
theorem claim_C4_field_failure_degrades :
    (∀ (p : RegexParser) (path : String) (re : RE) (caps : List (Nat × String))
       (i0 i1 i2 : Nat) (rest : List Nat) (t et : String) (sv : Option Nat),
       compileRegex p.pattern = some re →
       recaptures re path = some caps →
       p.indexes = i0 :: i1 :: i2 :: rest →
       capStr caps i0 = some t →
       ((i1 = 0 ∧ sv = some 1) ∨ (i1 ≠ 0 ∧ ∃ st, capStr caps i1 = some st ∧ sv = parseU16 st)) →
       capStr caps i2 = some et →
       parseU16 et = none →
       p.parseO path = Outcome.ok (some ⟨some t, sv, none⟩)) ∧
    (RegexParser.new "^(\\w+)/(\\d\x7b2\x7d)/(\\w+)$" [1, 2, 3]).parseO "show/03/ab" =
      Outcome.ok (some ⟨some "show", some 3, none⟩) := by
  constructor
  · intro p path re caps i0 i1 i2 rest t et sv hc hcap hidx h0 hseason h2 hep
    rcases hseason with ⟨h10, hsv⟩ | ⟨h1ne, st, hst, hsv⟩
    · subst h10; subst hsv
      simp only [RegexParser.parseO, hc, hcap, hidx, h0]
      rw [if_neg (by simp)]
      simp [h2, hep]
    · subst hsv
      simp only [RegexParser.parseO, hc, hcap, hidx, h0]
      rw [if_pos h1ne]
      simp [hst, h2, hep]
  · decide

/-- Witness for claim C4: the general statement applied to a concrete
parser and path whose episode capture is the non-numeric text ab. -/
theorem claim_C4_witness :
    (RegexParser.new "^(\\w+)/(\\d\x7b2\x7d)/(\\w+)$" [1, 2, 3]).parseO "show/03/ab" =
      Outcome.ok (some ⟨some "show", some 3, none⟩) :=
  claim_C4_field_failure_degrades.1
    (RegexParser.new "^(\\w+)/(\\d\x7b2\x7d)/(\\w+)$" [1, 2, 3]) "show/03/ab"
    ((compileRegex "^(\\w+)/(\\d\x7b2\x7d)/(\\w+)$").getD .eps)
    ((recaptures ((compileRegex "^(\\w+)/(\\d\x7b2\x7d)/(\\w+)$").getD .eps)
      "show/03/ab").getD [])
    1 2 3 [] "show" "ab" (some 3)
    (by decide) (by decide) rfl (by decide)
    (Or.inr ⟨by decide, "03", by decide, by decide⟩) (by decide) (by decide)

/-- Claim C5, counterexample: constructing a matcher from the malformed
pattern consisting of a lone opening parenthesis succeeds (new stores the
pattern verbatim and cannot fail), and a later parse call encounters the
pattern-compilation failure, swallowing it into no-match: pattern validity
is in fact deferred to match time, contrary to the claim. -/
theorem claim_C5_counterexample :
    (RegexParser.new "(" [1, 2, 3]).pattern = "(" ∧
    compileRegex "(" = none ∧
    (RegexParser.new "(" [1, 2, 3]).parseO "/a/b.mp4" = Outcome.ok none := by
  exact ⟨rfl, by decide, by decide⟩

/-- Claim C5, amended: RegexParser::new never fails and performs no
validation, storing pattern and indexes verbatim; pattern validity is
checked at each parse call, where a compilation failure makes the call
return no-match rather than an error. -/
theorem claim_C5_amended (pat : String) (idx : List Nat) :
    (RegexParser.new pat idx).pattern = pat ∧
    (RegexParser.new pat idx).indexes = idx ∧
    (compileRegex pat = none →
      ∀ path, (RegexParser.new pat idx).parseO path = Outcome.ok none) := by
  refine ⟨rfl, rfl, fun hc path => ?_⟩
  simp [RegexParser.parseO, RegexParser.new, hc]

/-- Witness for the amended claim C5 at the malformed pattern of the
counterexample. -/
theorem claim_C5_witness :
    (RegexParser.new "(" [1, 2, 3]).parseO "x" = Outcome.ok none :=
  (claim_C5_amended "(" [1, 2, 3]).2.2 (by decide) "x"

/-- Claim C6, counterexample: a constructed matcher whose field map
designates capture group 5 of a pattern with no groups panics when its
pattern matches, so a parse call is not total for every constructed
matcher. -/
theorem claim_C6_counterexample :
    (RegexParser.new "a" [5, 0, 0]).parseO "a" = Outcome.abort := by decide

/-- Claim C6, amended: for every constructed matcher whose field map
designates the whole match or capture groups that participate in every
match of its pattern (all built-in matchers qualify), a parse call is total
with exactly two outcomes, a record or no-match; it never errors and never
aborts. -/
theorem claim_C6_amended (p : RegexParser) (hp : goodParser p = true) (path : String) :
    p.parseO path = Outcome.ok none ∨ ∃ ep, p.parseO path = Outcome.ok (some ep) := by
  obtain ⟨r, hr⟩ := parseO_no_abort p hp path
  cases r with
  | none => exact Or.inl hr
  | some ep => exact Or.inr ⟨ep, hr⟩

/-- Witness for the amended claim C6: built-in pattern 2 satisfies the
validity condition and its parse call on a concrete path returns a value. -/
theorem claim_C6_witness :
    goodParser (RegexParser.new "^(.*?)/([^/]+)S(\\d\x7b2\x7d)E(\\d\x7b2\x7d)\\.(\\w+)$" [2, 3, 4]) = true ∧
    ((RegexParser.new "^(.*?)/([^/]+)S(\\d\x7b2\x7d)E(\\d\x7b2\x7d)\\.(\\w+)$" [2, 3, 4]).parseO
        "/a/ShowS01E02.mp4" = Outcome.ok none ∨
      ∃ ep, (RegexParser.new "^(.*?)/([^/]+)S(\\d\x7b2\x7d)E(\\d\x7b2\x7d)\\.(\\w+)$" [2, 3, 4]).parseO
        "/a/ShowS01E02.mp4" = Outcome.ok (some ep)) := by
  have hg : goodParser
      (RegexParser.new "^(.*?)/([^/]+)S(\\d\x7b2\x7d)E(\\d\x7b2\x7d)\\.(\\w+)$" [2, 3, 4]) = true := by
    decide
  exact ⟨hg, claim_C6_amended
    (RegexParser.new "^(.*?)/([^/]+)S(\\d\x7b2\x7d)E(\\d\x7b2\x7d)\\.(\\w+)$" [2, 3, 4]) hg
    "/a/ShowS01E02.mp4"⟩

/-- Claim C7: from_path and from_path_with_regex return an error if and
only if the input path cannot be interpreted as text; on every text path
from_path returns Ok, with Some on a match and None otherwise, so
structural non-match and partial field failure are never errors. -/
theorem claim_C7_error_iff_non_text (path : RustPath) :
    (path.toStr = none →
      Episode.from_path path = Outcome.ok (RustResult.err "Invalid path") ∧
      ∀ parsers, Episode.from_path_with_regex path parsers =
        Outcome.ok (RustResult.err "Invalid path")) ∧
    (∀ s, path.toStr = some s →
      (∃ v, Episode.from_path path = Outcome.ok (RustResult.ok v)) ∧
      ∀ parsers e, Episode.from_path_with_regex path parsers ≠
        Outcome.ok (RustResult.err e)) := by
  constructor
  · intro hn
    constructor
    · simp [Episode.from_path, Episode.from_path_with_regex, hn]
    · intro parsers
      simp [Episode.from_path_with_regex, hn]
  · intro s hs
    constructor
    · exact from_path_ok path s hs
    · intro parsers e
      unfold Episode.from_path_with_regex
      rw [hs]
      exact tryParsers_no_err s e parsers

/-- Witness for claim C7: a non-text path yields exactly the invalid-path
error, and a text path that matches no pattern yields Ok. -/
theorem claim_C7_witness :
    Episode.from_path ⟨none⟩ = Outcome.ok (RustResult.err "Invalid path") ∧
    ∃ v, Episode.from_path (strPath "/nomatch") = Outcome.ok (RustResult.ok v) :=
  ⟨((claim_C7_error_iff_non_text ⟨none⟩).1 rfl).1,
   ((claim_C7_error_iff_non_text (strPath "/nomatch")).2 "/nomatch" rfl).1⟩

/-- Claim C8: a captured numeric field with leading zeros is coerced by
integer parsing: the captured episode text 01201 yields the integer 1201,
both at the u16 parser and end to end through extraction. -/
theorem claim_C8_leading_zeros :
    parseU16 "01201" = some 1201 ∧
    Episode.from_path (strPath "/a/Show.2009.01201.mp4") =
      Outcome.ok (RustResult.ok (some ⟨some "Show", some 2009, some 1201⟩)) := by
  exact ⟨by decide, by decide⟩

/-- Claim C9: for a RegexParser whose pattern text is not a valid regular
expression, parse returns no-match for every input path; the invalid
pattern surfaces no error, at construction or per call. -/
theorem claim_C9_invalid_pattern_never_matches (p : RegexParser) (path : String)
    (hc : compileRegex p.pattern = none) : p.parseO path = Outcome.ok none := by
  simp [RegexParser.parseO, hc]

/-- Witness for claim C9 at a concrete unparseable pattern, an unclosed
bracket class. -/
theorem claim_C9_witness :
    (RegexParser.new "[ab" [1, 2, 3]).parseO "/a/b.mkv" = Outcome.ok none :=
  claim_C9_invalid_pattern_never_matches (RegexParser.new "[ab" [1, 2, 3]) "/a/b.mkv"
    (by decide)

/-- Claim C10: season and episode values are 16-bit unsigned integers:
every value the u16 parser produces is at most 65535, the purely numeric
text 99999 fails to parse, and a path whose 5-digit suffix is 99999 matches
built-in pattern 5 but yields a record with an absent episode field. -/
theorem claim_C10_u16_bound :
    (∀ (s : String) (n : Nat), parseU16 s = some n → n ≤ 65535) ∧
    parseU16 "99999" = none ∧
    Episode.from_path (strPath "/a/Show.2009.99999.mp4") =
      Outcome.ok (RustResult.ok (some ⟨some "Show", some 2009, none⟩)) := by
  exact ⟨fun s n h => parseU16_le s n h, by decide, by decide⟩

/-- Witness for claim C10: the bound applied at a concrete parse. -/
theorem claim_C10_witness : (1234 : Nat) ≤ 65535 :=
  claim_C10_u16_bound.1 "1234" 1234 (by decide)
